import Mathlib

/-!
# Verification of the RIP artifact synthesizer (`generateRIPFiles` in `src/App.tsx`)

This file embeds the binary-artifact generation core of the PDF-to-RIP
converter.  JavaScript `number` arithmetic is modelled exactly: integer
quantities are `ℕ`/`ℤ`, fractional arithmetic (`Math.floor`, division,
`%` on non-negative operands) is carried out in `ℚ`, and the
`Math.sin`/`Math.cos` intensity patterns live in `ℝ`.  A `Uint8Array`
store of an already-floored non-negative value reduces the value modulo
256 (JavaScript `ToUint8` wraps, it does not clamp).  `Math.random()` is
modelled as an ambient stream `r : ℕ → ℝ` of per-byte draws.
-/

namespace PrintRip

/-- Color modes offered by the converter (`ConversionSettings.colorMode`). -/
inductive ColorMode where
  | CMYK
  | Grayscale
  | BlackWhite
  deriving DecidableEq, Repr

/-- Page geometry delivered by the external PDF decoder:
`pageWidth`, `pageHeight` (pixels at the chosen DPI) and `pdf.numPages`. -/
structure PageGeometry where
  width : ℕ
  height : ℕ
  pageCount : ℕ
  deriving DecidableEq, Repr

/-- The `ConversionSettings` interface of `src/App.tsx`. -/
structure ConversionSettings where
  dpi : ℕ
  colorMode : ColorMode
  compressionLevel : ℕ
  deriving DecidableEq, Repr

/-- `settings.colorMode === 'CMYK' ? 4 : settings.colorMode === 'Grayscale' ? 1 : 1`
(line 189 of `src/App.tsx`). -/
def bytesPerPixel : ColorMode → ℕ
  | .CMYK => 4
  | .Grayscale => 1
  | .BlackWhite => 1

/-- The string the source interpolates for a color mode. -/
def colorModeText : ColorMode → String
  | .CMYK => "CMYK"
  | .Grayscale => "Grayscale"
  | .BlackWhite => "BlackWhite"

/-- `1 - compressionRatio + 0.3` with `compressionRatio = compressionLevel / 100`
(lines 190 and 192), read in exact rational arithmetic.  This is the
idealized size formula; the IEEE-754-faithful evaluation of the same line
is `dblDensityFactor` below, and the two differ (in doubles `1 - 0.8 + 0.3`
rounds to `0.49999999999999994`, one ulp below `1/2`). -/
def densityFactor (c : ℕ) : ℚ := 1 - (c : ℚ) / 100 + 0.3

/-- `baseImageSize = pageWidth * pageHeight * bytesPerPixel * pdf.numPages`
(line 191); the product is exact whenever it stays below `2^53`. -/
def baseImageSize (g : PageGeometry) (m : ColorMode) : ℕ :=
  g.width * g.height * bytesPerPixel m * g.pageCount

/-- `compressedImageSize = Math.floor(baseImageSize * (1 - compressionRatio + 0.3))`
(line 192) in exact rational arithmetic; also the length of `prtImageData`
(lines 240-241) in this idealized model.  The IEEE-754-faithful size is
`dblCompressedImageSize` below; at 850×1100, one page, compression 80 the
exact model yields 467500 while the double evaluation yields 467499. -/
def compressedImageSize (g : PageGeometry) (s : ConversionSettings) : ℕ :=
  (⌊(baseImageSize g s.colorMode : ℚ) * densityFactor s.compressionLevel⌋).toNat

/-- Fuel-driven base-2 logarithm, `log2fuel fuel n = ⌊log₂ n⌋` whenever
`1 ≤ n ≤ fuel` (structural recursion so that concrete values reduce in the
kernel). -/
def log2fuel : ℕ → ℕ → ℕ
  | 0, _ => 0
  | fuel + 1, n => if 2 ≤ n then log2fuel fuel (n / 2) + 1 else 0

/-- `⌊log₂ n⌋` for `n ≥ 1`. -/
def log2p (n : ℕ) : ℕ := log2fuel n n

/-- `2^k : ℚ` for an integer exponent, written with natural-number powers so
that concrete values reduce in the kernel. -/
def pow2 (k : ℤ) : ℚ :=
  if 0 ≤ k then ((2 ^ k.toNat : ℕ) : ℚ) else ((2 ^ (-k).toNat : ℕ) : ℚ)⁻¹

/-- `⌊q⌋` written on the raw numerator and denominator (kernel-reducible). -/
def ratFloor (q : ℚ) : ℤ := q.num / (q.den : ℤ)

/-- Round a rational to the nearest integer, ties to even — the IEEE-754
rounding direction of every JavaScript arithmetic operation. -/
def roundEven (m : ℚ) : ℤ :=
  if m - ratFloor m < 1 / 2 then ratFloor m
  else if 1 / 2 < m - ratFloor m then ratFloor m + 1
  else if ratFloor m % 2 = 0 then ratFloor m else ratFloor m + 1

/-- The binary exponent of a positive rational: the unique `e` with
`2^e ≤ q < 2^(e+1)`, found from the bit lengths of numerator and
denominator with a one-step correction. -/
def rexp (q : ℚ) : ℤ :=
  if q < pow2 ((log2p q.num.toNat : ℤ) - (log2p q.den : ℤ))
  then (log2p q.num.toNat : ℤ) - (log2p q.den : ℤ) - 1
  else (log2p q.num.toNat : ℤ) - (log2p q.den : ℤ)

/-- Round a positive rational to the nearest IEEE-754 binary64 value
(normal range; ties to even): scale into `[2^52, 2^53)`, round to an
integer significand, and scale back. -/
def flPos (q : ℚ) : ℚ :=
  (roundEven (q * pow2 (52 - rexp q)) : ℚ) * pow2 (rexp q - 52)

/-- Round any rational to the nearest binary64 value (normal range). -/
def dbl (q : ℚ) : ℚ :=
  if q = 0 then 0 else if 0 < q then flPos q else -flPos (-q)

/-- `1 - compressionRatio + 0.3` (lines 190 and 192) evaluated exactly as
JavaScript does: `compressionRatio` is the rounded quotient
`compressionLevel / 100`, the literal `0.3` is the double nearest `3/10`,
and the subtraction and addition are each correctly rounded. -/
def dblDensityFactor (c : ℕ) : ℚ :=
  dbl (dbl (1 - dbl ((c : ℚ) / 100)) + dbl (3 / 10))

/-- `pageWidth * pageHeight * bytesPerPixel * pdf.numPages` (line 191) with
each left-associated product correctly rounded to binary64. -/
def dblBaseImageSize (g : PageGeometry) (m : ColorMode) : ℚ :=
  dbl (dbl (dbl ((g.width : ℚ) * g.height) * bytesPerPixel m) * g.pageCount)

/-- `Math.floor(baseImageSize * (1 - compressionRatio + 0.3))` (line 192)
under IEEE-754 binary64 semantics: the faithful primary payload size. -/
def dblCompressedImageSize (g : PageGeometry) (s : ConversionSettings) : ℕ :=
  (ratFloor (dbl (dblBaseImageSize g s.colorMode
    * dblDensityFactor s.compressionLevel))).toNat

/-- The lines of the `.prt` header exactly as listed on lines 195-217 of the
source (the array passed to `join('\n')`). -/
def prtHeaderLines (g : PageGeometry) (s : ConversionSettings) (timestamp : String) :
    List String :=
  ["RICOH_GEN6_RIP_V3.2",
   "FILE_TYPE:PRINT_DATA",
   "CREATED_BY:PDF_TO_RIP_CONVERTER",
   "TIMESTAMP:" ++ timestamp,
   "DPI:" ++ toString s.dpi,
   "COLOR_MODE:" ++ colorModeText s.colorMode,
   "COMPRESSION:" ++ toString s.compressionLevel,
   "PAGES:" ++ toString g.pageCount,
   "PAGE_WIDTH:" ++ toString g.width,
   "PAGE_HEIGHT:" ++ toString g.height,
   "BYTES_PER_PIXEL:" ++ toString (bytesPerPixel s.colorMode),
   "PRINT_HEAD_CONFIG:RICOH_GEN6",
   "NOZZLE_COUNT:1280",
   "DROP_SIZE:6PL",
   "FIRING_FREQUENCY:40KHZ",
   "PASS_COUNT:4",
   "INTERLEAVE_MODE:ENABLED",
   "COLOR_SEPARATION:ENABLED",
   "HALFTONE_METHOD:ERROR_DIFFUSION",
   "INK_DENSITY_CONTROL:ENABLED",
   "DROPLET_PLACEMENT_DATA_START"]

/-- The eleven identity fields the spec lists first for the primary header. -/
def prtIdentityLines (g : PageGeometry) (s : ConversionSettings) (timestamp : String) :
    List String :=
  ["RICOH_GEN6_RIP_V3.2",
   "FILE_TYPE:PRINT_DATA",
   "CREATED_BY:PDF_TO_RIP_CONVERTER",
   "TIMESTAMP:" ++ timestamp,
   "DPI:" ++ toString s.dpi,
   "COLOR_MODE:" ++ colorModeText s.colorMode,
   "COMPRESSION:" ++ toString s.compressionLevel,
   "PAGES:" ++ toString g.pageCount,
   "PAGE_WIDTH:" ++ toString g.width,
   "PAGE_HEIGHT:" ++ toString g.height,
   "BYTES_PER_PIXEL:" ++ toString (bytesPerPixel s.colorMode)]

/-- The fixed device-capability lines of the primary header (lines 207-215):
the print-head block between `BYTES_PER_PIXEL` and the sentinel. -/
def deviceCapabilityLines : List String :=
  ["PRINT_HEAD_CONFIG:RICOH_GEN6",
   "NOZZLE_COUNT:1280",
   "DROP_SIZE:6PL",
   "FIRING_FREQUENCY:40KHZ",
   "PASS_COUNT:4",
   "INTERLEAVE_MODE:ENABLED",
   "COLOR_SEPARATION:ENABLED",
   "HALFTONE_METHOD:ERROR_DIFFUSION",
   "INK_DENSITY_CONTROL:ENABLED"]

/-- `previewDPI = Math.min(settings.dpi, 300)` (line 220). -/
def previewDPI (s : ConversionSettings) : ℕ := min s.dpi 300

/-- `previewWidth = Math.ceil(pageWidth * (previewDPI / settings.dpi))` (line 221). -/
def previewWidth (g : PageGeometry) (s : ConversionSettings) : ℕ :=
  (⌈(g.width : ℚ) * ((previewDPI s : ℚ) / s.dpi)⌉).toNat

/-- `previewHeight = Math.ceil(pageHeight * (previewDPI / settings.dpi))` (line 222). -/
def previewHeight (g : PageGeometry) (s : ConversionSettings) : ℕ :=
  (⌈(g.height : ℚ) * ((previewDPI s : ℚ) / s.dpi)⌉).toNat

/-- The lines of the `.prt.pvw` header exactly as listed on lines 224-237. -/
def pvwHeaderLines (g : PageGeometry) (s : ConversionSettings) (timestamp : String) :
    List String :=
  ["RICOH_GEN6_PREVIEW_V3.2",
   "FILE_TYPE:PREVIEW_DATA",
   "CREATED_BY:PDF_TO_RIP_CONVERTER",
   "TIMESTAMP:" ++ timestamp,
   "DPI:" ++ toString (previewDPI s),
   "COLOR_MODE:" ++ colorModeText s.colorMode,
   "COMPRESSION:90",
   "PAGES:" ++ toString g.pageCount,
   "PAGE_WIDTH:" ++ toString (previewWidth g s),
   "PAGE_HEIGHT:" ++ toString (previewHeight g s),
   "BYTES_PER_PIXEL:" ++ toString (bytesPerPixel s.colorMode),
   "PREVIEW_DATA_START"]

/-- `lines.join('\n') + '\n'` applied to a header line list. -/
def headerText (lines : List String) : String :=
  String.intercalate "\n" lines ++ "\n"

/-- `new TextEncoder().encode(text)`: the UTF-8 bytes of the header text. -/
def stringBytes (text : String) : List ℤ :=
  text.toUTF8.toList.map fun b => (b.toNat : ℤ)

/-- JavaScript `a % b` for non-negative `a` and positive `b` (also exact for
`b = 0`, where JavaScript produces `i % Infinity = i` for our `S / 0` case,
matching `a - 0 * ⌊a / 0⌋ = a` under the `x / 0 = 0` convention of `ℚ`). -/
def jsMod (a b : ℚ) : ℚ := a - b * ⌊a / b⌋

/-- `pageOffset = i % (prtImageDataSize / pdf.numPages)` (line 245), with
`S` the payload size and `N` the page count. -/
def pageOffsetOf (S N : ℕ) (i : ℕ) : ℚ := jsMod i ((S : ℚ) / N)

/-- `row = Math.floor(pageOffset / pageWidth)` (line 246). -/
def rowOf (S N W : ℕ) (i : ℕ) : ℤ := ⌊pageOffsetOf S N i / W⌋

/-- `col = pageOffset % pageWidth` (line 247). -/
def colOf (S N W : ℕ) (i : ℕ) : ℚ := jsMod (pageOffsetOf S N i) W

/-- `pvwImageDataSize = Math.floor(previewWidth * previewHeight * bytesPerPixel * numPages * 0.9)`
(line 267). -/
def pvwImageDataSize (g : PageGeometry) (s : ConversionSettings) : ℕ :=
  (⌊(previewWidth g s * previewHeight g s * bytesPerPixel s.colorMode * g.pageCount : ℚ)
      * 0.9⌋).toNat

/-- `sourceIndex = Math.floor((i / pvwImageDataSize) * prtImageDataSize)` (line 272). -/
def sourceIndexOf (P S : ℕ) (i : ℕ) : ℕ :=
  (⌊((i : ℚ) / P) * S⌋).toNat

/-- `controlDataSize = Math.floor(prtImageDataSize * 0.1)` (line 277). -/
def controlDataSize (S : ℕ) : ℕ := (⌊(S : ℚ) * 0.1⌋).toNat

/-- `firingDelay = Math.floor((nozzleIndex / 1280) * 255)` with
`nozzleIndex = i % 1280` (lines 282-283). -/
def firingDelay (i : ℕ) : ℤ := ⌊((i % 1280 : ℕ) : ℚ) / 1280 * 255⌋

open Classical in
/-- The byte stored at index `i` of `prtImageData` (lines 244-264).  `S` is
`prtImageDataSize`, `N` is `pdf.numPages`, `W` is `pageWidth`, and `r i` is
the `Math.random()` draw consumed for this byte.  The `Uint8Array` store
reduces the floored value modulo 256 (`ToUint8`); the BlackWhite branch
stores `255` or `0` directly.  The CMYK branch computes a channel number
`i % 4` which, as in the source, is never used. -/
noncomputable def prtByte (mode : ColorMode) (S N W : ℕ) (r : ℕ → ℝ) (i : ℕ) : ℤ :=
  let row : ℤ := rowOf S N W i
  let col : ℚ := colOf S N W i
  match mode with
  | .CMYK =>
      let _channel : ℕ := i % 4
      let density : ℝ := Real.sin (row * 0.01) * Real.cos (col * 0.01) * 127 + 128
      ⌊density * (0.8 + r i * 0.4)⌋ % 256
  | .Grayscale =>
      let density : ℝ := Real.sin (row * 0.02) * Real.cos (col * 0.02) * 127 + 128
      ⌊density * (0.7 + r i * 0.6)⌋ % 256
  | .BlackWhite =>
      let threshold : ℝ := Real.sin (row * 0.1) * Real.cos (col * 0.1) * 127 + 128
      if threshold > 128 then 255 else 0

/-- `prtImageData` as a list: the fill loop of lines 244-264 over
`i = 0, …, S-1`. -/
noncomputable def prtImageData (mode : ColorMode) (S N W : ℕ) (r : ℕ → ℝ) : List ℤ :=
  (List.range S).map (prtByte mode S N W r)

/-- The primary payload of the pipeline: `prtImageData` at the sizes the
source derives from the geometry and settings. -/
noncomputable def prtPayloadOf (g : PageGeometry) (s : ConversionSettings) (r : ℕ → ℝ) :
    List ℤ :=
  prtImageData s.colorMode (compressedImageSize g s) g.pageCount g.width r

/-- `pvwImageData[i] = prtImageData[sourceIndex] || 0` (lines 271-274): the
out-of-range read yields `undefined` and `|| 0` turns it (and a stored `0`)
into `0`, which is `List.getD` with default `0`. -/
noncomputable def pvwImageData (prt : List ℤ) (P : ℕ) : List ℤ :=
  (List.range P).map fun i => prt.getD (sourceIndexOf P prt.length i) 0

/-- The preview payload of the pipeline. -/
noncomputable def pvwPayloadOf (g : PageGeometry) (s : ConversionSettings) (r : ℕ → ℝ) :
    List ℤ :=
  pvwImageData (prtPayloadOf g s r) (pvwImageDataSize g s)

/-- `dropletSize = settings.colorMode === 'BlackWhite' ? 255 : Math.floor(128 + Math.random() * 127)`
(line 284), with `x` the random draw. -/
noncomputable def dropletSize (mode : ColorMode) (x : ℝ) : ℤ :=
  match mode with
  | .BlackWhite => 255
  | _ => ⌊(128 : ℝ) + x * 127⌋

/-- `controlData[i] = (firingDelay + dropletSize) % 256` (lines 281-285);
`r i` is the draw consumed for this byte (BlackWhite consumes none). -/
noncomputable def controlByte (mode : ColorMode) (r : ℕ → ℝ) (i : ℕ) : ℤ :=
  (firingDelay i + dropletSize mode (r i)) % 256

/-- The control-data block: the fill loop of lines 281-286. -/
noncomputable def controlData (mode : ColorMode) (r : ℕ → ℝ) (size : ℕ) : List ℤ :=
  (List.range size).map (controlByte mode r)

/-- The control data of the pipeline, sized from the primary payload. -/
noncomputable def controlDataOf (g : PageGeometry) (s : ConversionSettings) (r : ℕ → ℝ) :
    List ℤ :=
  controlData s.colorMode r (controlDataSize (compressedImageSize g s))

/-- `view.set(src, off)`: overwrite the buffer from position `off` with the
bytes of `src`, one at a time. -/
def writeAt : List ℤ → ℕ → List ℤ → List ℤ
  | buf, _, [] => buf
  | buf, off, x :: xs => writeAt (buf.set off x) (off + 1) xs

/-- The assembler (lines 289-299): allocate a zeroed buffer of the exact
total size, then `set` header, payload and (for the primary file) control
data at their offsets. -/
def assemble (header payload : List ℤ) (ctrl : Option (List ℤ)) : List ℤ :=
  let c := ctrl.getD []
  let total := header.length + payload.length + c.length
  writeAt
    (writeAt
      (writeAt (List.replicate total 0) 0 header)
      header.length payload)
    (header.length + payload.length) c

/-- The assembled `.prt` buffer (`prtResult`). -/
noncomputable def prtFile (g : PageGeometry) (s : ConversionSettings)
    (timestamp : String) (r : ℕ → ℝ) : List ℤ :=
  assemble (stringBytes (headerText (prtHeaderLines g s timestamp)))
    (prtPayloadOf g s r) (some (controlDataOf g s r))

/-- The assembled `.prt.pvw` buffer (`pvwResult`): no control data. -/
noncomputable def pvwFile (g : PageGeometry) (s : ConversionSettings)
    (timestamp : String) (r : ℕ → ℝ) : List ℤ :=
  assemble (stringBytes (headerText (pvwHeaderLines g s timestamp)))
    (pvwPayloadOf g s r) none

/-- Modelled from the spec: the spec's reading of the CMYK output byte,
"`floor(base * (0.8 + r*0.4))` … clamped to [0,255]" — a clamp, where the
source's `Uint8Array` store wraps modulo 256.  Used only to compare the
spec's words against the source's behavior. -/
noncomputable def specCmykByteClamped (row : ℤ) (col : ℚ) (x : ℝ) : ℤ :=
  max 0 (min (⌊(Real.sin (row * 0.01) * Real.cos (col * 0.01) * 127 + 128)
    * (0.8 + x * 0.4)⌋) 255)

/-! ## The binary64 rounding model -/

theorem log2fuel_spec :
    ∀ (fuel n : ℕ), 1 ≤ n → n ≤ fuel →
      2 ^ log2fuel fuel n ≤ n ∧ n < 2 ^ (log2fuel fuel n + 1)
  | 0, _n, h1, h2 => absurd (h1.trans h2) (by norm_num)
  | fuel + 1, n, h1, h2 => by
      rw [log2fuel]
      split
      · next h =>
          obtain ⟨hlo, hhi⟩ := log2fuel_spec fuel (n / 2) (by omega) (by omega)
          have e1 : (2 : ℕ) ^ (log2fuel fuel (n / 2) + 1)
              = 2 * 2 ^ log2fuel fuel (n / 2) := by
            rw [pow_succ]; ring
          have e2 : (2 : ℕ) ^ (log2fuel fuel (n / 2) + 1 + 1)
              = 2 * (2 * 2 ^ log2fuel fuel (n / 2)) := by
            rw [pow_succ, pow_succ]; ring
          rw [e1] at hhi ⊢
          rw [e2]
          omega
      · next h =>
          simp only [pow_zero, zero_add, pow_one]
          omega

theorem log2p_spec (n : ℕ) (h : 1 ≤ n) :
    2 ^ log2p n ≤ n ∧ n < 2 ^ (log2p n + 1) :=
  log2fuel_spec n n h le_rfl

theorem pow2_eq_zpow (k : ℤ) : pow2 k = (2 : ℚ) ^ k := by
  rw [pow2]
  split
  · next h =>
      rw [show k = ((k.toNat : ℕ) : ℤ) from (Int.toNat_of_nonneg h).symm, zpow_natCast]
      push_cast
      rw [Int.toNat_natCast]
  · next h =>
      rw [show k = -((-k).toNat : ℕ) by omega, zpow_neg, zpow_natCast]
      push_cast
      rw [neg_neg, Int.toNat_natCast]

theorem pow2_pos (k : ℤ) : 0 < pow2 k := by
  rw [pow2_eq_zpow]
  exact zpow_pos (by norm_num) k

theorem pow2_add (a b : ℤ) : pow2 (a + b) = pow2 a * pow2 b := by
  rw [pow2_eq_zpow, pow2_eq_zpow, pow2_eq_zpow, zpow_add₀ (by norm_num : (2 : ℚ) ≠ 0)]

theorem pow2_le_pow2 {a b : ℤ} (h : a ≤ b) : pow2 a ≤ pow2 b := by
  rw [pow2_eq_zpow, pow2_eq_zpow]
  exact zpow_le_zpow_right₀ (by norm_num) h

theorem pow2_natCast (i : ℕ) : pow2 (i : ℤ) = ((2 ^ i : ℕ) : ℚ) := by
  rw [pow2, if_pos (by positivity), Int.toNat_natCast]

theorem pow2_sub_natCast (a b : ℕ) :
    pow2 ((a : ℤ) - b) = ((2 ^ a : ℕ) : ℚ) / ((2 ^ b : ℕ) : ℚ) := by
  rw [pow2_eq_zpow, zpow_sub₀ (by norm_num : (2 : ℚ) ≠ 0), ← pow2_eq_zpow, ← pow2_eq_zpow,
    pow2_natCast, pow2_natCast]

theorem ratFloor_eq (q : ℚ) : ratFloor q = ⌊q⌋ := by
  rw [ratFloor, Rat.floor_def]

theorem floor_le_roundEven (m : ℚ) : ⌊m⌋ ≤ roundEven m := by
  rw [roundEven, ratFloor_eq]
  split_ifs <;> omega

theorem roundEven_le (m : ℚ) : roundEven m ≤ ⌊m⌋ + 1 := by
  rw [roundEven, ratFloor_eq]
  split_ifs <;> omega

theorem roundEven_mono {x y : ℚ} (h : x ≤ y) : roundEven x ≤ roundEven y := by
  have hf : ⌊x⌋ ≤ ⌊y⌋ := Int.floor_le_floor h
  by_cases hlt : ⌊x⌋ < ⌊y⌋
  · have h1 := roundEven_le x
    have h2 := floor_le_roundEven y
    omega
  · have heq : ⌊x⌋ = ⌊y⌋ := by omega
    have hfr : x - (⌊x⌋ : ℚ) ≤ y - (⌊y⌋ : ℚ) := by
      rw [heq]
      linarith
    rw [roundEven, roundEven, ratFloor_eq, ratFloor_eq, heq]
    rw [heq] at hfr
    split_ifs <;> first | omega | linarith

theorem rexp_bracket {q : ℚ} (hq : 0 < q) :
    pow2 (rexp q) ≤ q ∧ q < pow2 (rexp q + 1) := by
  have hnum : 0 < q.num := Rat.num_pos.mpr hq
  have hn1 : 1 ≤ q.num.toNat := by omega
  have hd1 : 1 ≤ q.den := q.den_pos
  obtain ⟨hna, hnb⟩ := log2p_spec q.num.toNat hn1
  obtain ⟨hda, hdb⟩ := log2p_spec q.den hd1
  have hdq : (0 : ℚ) < (q.den : ℚ) := by exact_mod_cast hd1
  have hqnd : q = ((q.num.toNat : ℕ) : ℚ) / ((q.den : ℕ) : ℚ) := by
    have h2 : ((q.num.toNat : ℕ) : ℤ) = q.num := Int.toNat_of_nonneg hnum.le
    have h1 : ((q.num.toNat : ℕ) : ℚ) = ((q.num : ℤ) : ℚ) := by exact_mod_cast congrArg (fun z : ℤ => (z : ℚ)) h2
    rw [h1, Rat.num_div_den]
  have hub : q < pow2 ((log2p q.num.toNat : ℤ) - (log2p q.den : ℤ) + 1) := by
    have key : q.num.toNat * 2 ^ log2p q.den
        < 2 ^ (log2p q.num.toNat + 1) * q.den := by
      calc q.num.toNat * 2 ^ log2p q.den
          < 2 ^ (log2p q.num.toNat + 1) * 2 ^ log2p q.den :=
            mul_lt_mul_of_pos_right hnb (by positivity)
        _ ≤ 2 ^ (log2p q.num.toNat + 1) * q.den := Nat.mul_le_mul (le_refl _) hda
    have he : (log2p q.num.toNat : ℤ) - (log2p q.den : ℤ) + 1
        = ((log2p q.num.toNat + 1 : ℕ) : ℤ) - ((log2p q.den : ℕ) : ℤ) := by
      push_cast
      ring
    rw [he, pow2_sub_natCast]
    conv_lhs => rw [hqnd]
    rw [div_lt_div_iff₀ hdq (by positivity)]
    exact_mod_cast key
  have hlb : pow2 ((log2p q.num.toNat : ℤ) - (log2p q.den : ℤ) - 1) < q := by
    have key : 2 ^ log2p q.num.toNat * q.den
        < q.num.toNat * 2 ^ (log2p q.den + 1) := by
      calc 2 ^ log2p q.num.toNat * q.den
          < 2 ^ log2p q.num.toNat * 2 ^ (log2p q.den + 1) :=
            mul_lt_mul_of_pos_left hdb (by positivity)
        _ ≤ q.num.toNat * 2 ^ (log2p q.den + 1) := Nat.mul_le_mul hna (le_refl _)
    have he : (log2p q.num.toNat : ℤ) - (log2p q.den : ℤ) - 1
        = ((log2p q.num.toNat : ℕ) : ℤ) - ((log2p q.den + 1 : ℕ) : ℤ) := by
      push_cast
      ring
    rw [he, pow2_sub_natCast]
    conv_rhs => rw [hqnd]
    rw [div_lt_div_iff₀ (by positivity) hdq]
    exact_mod_cast key
  rw [rexp]
  split
  · next hcase =>
      refine ⟨le_of_lt hlb, ?_⟩
      rw [sub_add_cancel]
      exact hcase
  · next hcase =>
      exact ⟨not_lt.mp hcase, hub⟩

theorem pow2_52 : pow2 52 = ((2 ^ 52 : ℤ) : ℚ) := by
  rw [show (52 : ℤ) = ((52 : ℕ) : ℤ) from rfl, pow2_natCast]
  push_cast
  ring

theorem pow2_53 : pow2 53 = ((2 ^ 53 : ℤ) : ℚ) := by
  rw [show (53 : ℤ) = ((53 : ℕ) : ℤ) from rfl, pow2_natCast]
  push_cast
  ring

theorem le_flPos {q : ℚ} (hq : 0 < q) : pow2 (rexp q) ≤ flPos q := by
  have hbr := rexp_bracket hq
  have hm : pow2 52 ≤ q * pow2 (52 - rexp q) := by
    calc pow2 52 = pow2 (rexp q) * pow2 (52 - rexp q) := by
          rw [← pow2_add]
          congr 1
          ring
      _ ≤ q * pow2 (52 - rexp q) :=
          mul_le_mul_of_nonneg_right hbr.1 (pow2_pos _).le
  have hfl : (2 ^ 52 : ℤ) ≤ ⌊q * pow2 (52 - rexp q)⌋ := by
    apply Int.le_floor.mpr
    rw [← pow2_52]
    exact hm
  have hre : (2 ^ 52 : ℤ) ≤ roundEven (q * pow2 (52 - rexp q)) :=
    le_trans hfl (floor_le_roundEven _)
  have hreq : ((2 ^ 52 : ℤ) : ℚ) ≤ (roundEven (q * pow2 (52 - rexp q)) : ℚ) := by
    exact_mod_cast hre
  calc pow2 (rexp q) = pow2 52 * pow2 (rexp q - 52) := by
        rw [← pow2_add]
        congr 1
        ring
    _ ≤ (roundEven (q * pow2 (52 - rexp q)) : ℚ) * pow2 (rexp q - 52) := by
        apply mul_le_mul_of_nonneg_right _ (pow2_pos _).le
        rw [pow2_52]
        exact hreq
    _ = flPos q := rfl

theorem flPos_le {q : ℚ} (hq : 0 < q) : flPos q ≤ pow2 (rexp q + 1) := by
  have hbr := rexp_bracket hq
  have hm : q * pow2 (52 - rexp q) < pow2 53 := by
    calc q * pow2 (52 - rexp q) < pow2 (rexp q + 1) * pow2 (52 - rexp q) :=
          mul_lt_mul_of_pos_right hbr.2 (pow2_pos _)
      _ = pow2 53 := by
          rw [← pow2_add]
          congr 1
          ring
  have hfl : ⌊q * pow2 (52 - rexp q)⌋ < (2 ^ 53 : ℤ) := by
    apply Int.floor_lt.mpr
    rw [← pow2_53]
    exact hm
  have hre : roundEven (q * pow2 (52 - rexp q)) ≤ (2 ^ 53 : ℤ) := by
    have := roundEven_le (q * pow2 (52 - rexp q))
    omega
  have hreq : (roundEven (q * pow2 (52 - rexp q)) : ℚ) ≤ ((2 ^ 53 : ℤ) : ℚ) := by
    exact_mod_cast hre
  calc flPos q
      = (roundEven (q * pow2 (52 - rexp q)) : ℚ) * pow2 (rexp q - 52) := rfl
    _ ≤ pow2 53 * pow2 (rexp q - 52) := by
        apply mul_le_mul_of_nonneg_right _ (pow2_pos _).le
        rw [pow2_53]
        exact hreq
    _ = pow2 (rexp q + 1) := by
        rw [← pow2_add]
        congr 1
        ring

theorem flPos_pos {q : ℚ} (hq : 0 < q) : 0 < flPos q :=
  lt_of_lt_of_le (pow2_pos _) (le_flPos hq)

theorem flPos_mono {x y : ℚ} (hx : 0 < x) (hxy : x ≤ y) : flPos x ≤ flPos y := by
  have hy : 0 < y := lt_of_lt_of_le hx hxy
  have he : rexp x ≤ rexp y := by
    by_contra hc
    push_neg at hc
    have h1 : pow2 (rexp y + 1) ≤ pow2 (rexp x) := pow2_le_pow2 (by omega)
    have h2 := (rexp_bracket hx).1
    have h3 := (rexp_bracket hy).2
    linarith
  rcases eq_or_lt_of_le he with heq | hlt
  · rw [flPos, flPos, ← heq]
    apply mul_le_mul_of_nonneg_right _ (pow2_pos _).le
    have hmm : x * pow2 (52 - rexp x) ≤ y * pow2 (52 - rexp x) :=
      mul_le_mul_of_nonneg_right hxy (pow2_pos _).le
    exact_mod_cast roundEven_mono hmm
  · calc flPos x ≤ pow2 (rexp x + 1) := flPos_le hx
      _ ≤ pow2 (rexp y) := pow2_le_pow2 (by omega)
      _ ≤ flPos y := le_flPos hy

theorem dbl_nonneg {q : ℚ} (hq : 0 ≤ q) : 0 ≤ dbl q := by
  rw [dbl]
  split_ifs with h1 h2
  · exact le_refl 0
  · exact (flPos_pos h2).le
  · exact absurd (lt_of_le_of_ne hq (Ne.symm h1)) h2

theorem dbl_mono {x y : ℚ} (h : x ≤ y) : dbl x ≤ dbl y := by
  rw [dbl, dbl]
  split_ifs with h1 h2 h3 h4 h5 h6 h7 h8
  · exact le_refl 0
  · exact (flPos_pos h3).le
  · exact absurd (lt_of_le_of_ne (not_lt.mp h3) h2) (by rw [h1] at h; exact not_lt.mpr h)
  · exact absurd h (by rw [h5]; exact not_le.mpr h4)
  · exact flPos_mono h4 h
  · exact absurd h (not_le.mpr (lt_trans (lt_of_le_of_ne (not_lt.mp h6) h5) h4))
  · exact neg_nonpos.mpr (flPos_pos (by
      have hx : x < 0 := lt_of_le_of_ne (not_lt.mp h4) h1
      linarith)).le
  · exact le_trans (neg_nonpos.mpr (flPos_pos (by
      have hx : x < 0 := lt_of_le_of_ne (not_lt.mp h4) h1
      linarith)).le) (flPos_pos h8).le
  · have hx : x < 0 := lt_of_le_of_ne (not_lt.mp h4) h1
    have hy : y < 0 := lt_of_le_of_ne (not_lt.mp h8) h7
    exact neg_le_neg (flPos_mono (by linarith) (by linarith))

theorem dbl_one : dbl 1 = 1 := by with_unfolding_all rfl

theorem dblDensityFactor_nonneg {c : ℕ} (hc : c ≤ 100) : 0 ≤ dblDensityFactor c := by
  have h0 : dbl ((c : ℚ) / 100) ≤ 1 := by
    have h1 : ((c : ℚ) / 100) ≤ 1 := by
      rw [div_le_one (by norm_num)]
      exact_mod_cast hc
    calc dbl ((c : ℚ) / 100) ≤ dbl 1 := dbl_mono h1
      _ = 1 := dbl_one
  have h3 : 0 ≤ dbl (1 - dbl ((c : ℚ) / 100)) := dbl_nonneg (by linarith)
  have h4 : 0 ≤ dbl (3 / 10) := dbl_nonneg (by norm_num)
  rw [dblDensityFactor]
  exact dbl_nonneg (by linarith)

theorem dblDensityFactor_anti {c c' : ℕ} (h : c ≤ c') :
    dblDensityFactor c' ≤ dblDensityFactor c := by
  rw [dblDensityFactor, dblDensityFactor]
  apply dbl_mono
  have h1 : dbl ((c : ℚ) / 100) ≤ dbl ((c' : ℚ) / 100) := by
    apply dbl_mono
    apply div_le_div_of_nonneg_right ?_ (by norm_num)
    exact_mod_cast h
  have h2 : dbl (1 - dbl ((c' : ℚ) / 100)) ≤ dbl (1 - dbl ((c : ℚ) / 100)) :=
    dbl_mono (by linarith)
  linarith

theorem dblBaseImageSize_nonneg (g : PageGeometry) (m : ColorMode) :
    0 ≤ dblBaseImageSize g m := by
  rw [dblBaseImageSize]
  apply dbl_nonneg
  apply mul_nonneg _ (by positivity)
  apply dbl_nonneg
  apply mul_nonneg _ (by positivity)
  apply dbl_nonneg
  positivity

theorem dblCompressedImageSize_cast (g : PageGeometry) (s : ConversionSettings)
    (hc : s.compressionLevel ≤ 100) :
    ((dblCompressedImageSize g s : ℕ) : ℤ)
      = ⌊dbl (dblBaseImageSize g s.colorMode * dblDensityFactor s.compressionLevel)⌋ := by
  have hnn : 0 ≤ ratFloor (dbl (dblBaseImageSize g s.colorMode
      * dblDensityFactor s.compressionLevel)) := by
    rw [ratFloor_eq]
    exact Int.floor_nonneg.mpr (dbl_nonneg (mul_nonneg
      (dblBaseImageSize_nonneg g s.colorMode) (dblDensityFactor_nonneg hc)))
  rw [dblCompressedImageSize, Int.toNat_of_nonneg hnn, ratFloor_eq]

theorem dblCompressedImageSize_anti (g : PageGeometry) (dpi : ℕ) (m : ColorMode)
    {c c' : ℕ} (hcc : c ≤ c') :
    dblCompressedImageSize g ⟨dpi, m, c'⟩ ≤ dblCompressedImageSize g ⟨dpi, m, c⟩ := by
  rw [dblCompressedImageSize, dblCompressedImageSize]
  apply Int.toNat_le_toNat
  rw [ratFloor_eq, ratFloor_eq]
  apply Int.floor_le_floor
  apply dbl_mono
  exact mul_le_mul_of_nonneg_left (dblDensityFactor_anti hcc) (dblBaseImageSize_nonneg g m)

set_option maxRecDepth 4000 in
/-- The IEEE-754-faithful primary payload size at the round-trip scenario:
one ulp of `1 - 0.8 + 0.3` below `0.5` costs one byte of the exact-model
467500. -/
theorem dblSize_roundtrip :
    dblCompressedImageSize ⟨850, 1100, 1⟩ ⟨600, .BlackWhite, 80⟩ = 467499 := by
  with_unfolding_all rfl

/-! ## General lemmas about the generators -/

theorem length_prtImageData (mode : ColorMode) (S N W : ℕ) (r : ℕ → ℝ) :
    (prtImageData mode S N W r).length = S := by
  simp [prtImageData]

theorem length_prtPayloadOf (g : PageGeometry) (s : ConversionSettings) (r : ℕ → ℝ) :
    (prtPayloadOf g s r).length = compressedImageSize g s := by
  simp [prtPayloadOf, length_prtImageData]

theorem prtImageData_getD (mode : ColorMode) (S N W : ℕ) (r : ℕ → ℝ) (i : ℕ) :
    (prtImageData mode S N W r).getD i 0
      = if i < S then prtByte mode S N W r i else 0 := by
  by_cases h : i < S
  · rw [List.getD_eq_getElem?_getD, if_pos h]
    simp [prtImageData, h]
  · rw [List.getD_eq_getElem?_getD, if_neg h]
    rw [List.getElem?_eq_none]
    · rfl
    · simpa [length_prtImageData] using Nat.le_of_not_lt h

theorem length_controlData (mode : ColorMode) (r : ℕ → ℝ) (size : ℕ) :
    (controlData mode r size).length = size := by
  simp [controlData]

theorem length_pvwImageData (prt : List ℤ) (P : ℕ) :
    (pvwImageData prt P).length = P := by
  simp [pvwImageData]

theorem writeAt_cons_succ (a : ℤ) (buf : List ℤ) (off : ℕ) (src : List ℤ) :
    writeAt (a :: buf) (off + 1) src = a :: writeAt buf off src := by
  induction src generalizing a buf off with
  | nil => rfl
  | cons x xs ih =>
      show writeAt ((a :: buf).set (off + 1) x) (off + 2) xs = _
      rw [List.set_cons_succ]
      exact ih a (buf.set off x) (off + 1)

theorem writeAt_zero_full (src buf : List ℤ) (h : src.length ≤ buf.length) :
    writeAt buf 0 src = src ++ buf.drop src.length := by
  induction src generalizing buf with
  | nil => simp [writeAt]
  | cons x xs ih =>
      match buf with
      | [] => exact absurd h (by simp)
      | y :: buf' =>
          show writeAt ((y :: buf').set 0 x) 1 xs = _
          rw [List.set_cons_zero, show (1 : ℕ) = 0 + 1 from rfl, writeAt_cons_succ]
          rw [ih buf' (by simpa using h)]
          rfl

theorem writeAt_after (pre buf src : List ℤ) :
    writeAt (pre ++ buf) pre.length src = pre ++ writeAt buf 0 src := by
  induction pre with
  | nil => rfl
  | cons a pre ih =>
      show writeAt (a :: (pre ++ buf)) (pre.length + 1) src = _
      rw [writeAt_cons_succ, ih]
      rfl

theorem assemble_eq (header payload : List ℤ) (ctrl : Option (List ℤ)) :
    assemble header payload ctrl = header ++ payload ++ ctrl.getD [] := by
  set c := ctrl.getD [] with hc
  show writeAt (writeAt (writeAt
      (List.replicate (header.length + payload.length + c.length) 0) 0 header)
      header.length payload) (header.length + payload.length) c = _
  rw [show List.replicate (header.length + payload.length + c.length) (0 : ℤ)
        = List.replicate header.length 0
          ++ (List.replicate payload.length 0 ++ List.replicate c.length 0) by
      rw [← List.replicate_add, ← List.replicate_add, Nat.add_assoc]]
  rw [writeAt_zero_full header _ (by simp),
      List.drop_append_of_le_length (by simp), List.drop_replicate, Nat.sub_self]
  simp only [List.replicate_zero, List.nil_append]
  rw [writeAt_after header _ payload,
      writeAt_zero_full payload _ (by simp),
      List.drop_append_of_le_length (by simp), List.drop_replicate, Nat.sub_self]
  simp only [List.replicate_zero, List.nil_append]
  rw [show header.length + payload.length = (header ++ payload).length by simp,
      show header ++ (payload ++ List.replicate c.length 0)
        = (header ++ payload) ++ List.replicate c.length 0 by simp,
      writeAt_after (header ++ payload) _ c,
      writeAt_zero_full c _ (by simp), List.drop_replicate, Nat.sub_self]
  simp

theorem length_assemble (header payload : List ℤ) (ctrl : Option (List ℤ)) :
    (assemble header payload ctrl).length
      = header.length + payload.length + (ctrl.getD []).length := by
  rw [assemble_eq]
  simp [Nat.add_assoc]

/-! ## The claims -/

/-- C2 (counterexample): the stored CMYK byte is not the clamped value the
claim describes.  At geometry width 1, height 200, one page, CMYK,
compression level 80 (primary payload size 400), index 100 derives row 100
and column 0, so the base intensity is `sin(1)*cos(0)*127 + 128 > 223.25`;
with draw `r = 0.9` the floored value lies in `[258, 295]`, the spec's
clamp yields 255, but the `Uint8Array` store wraps modulo 256 to a value
of at most 39. -/
theorem claim2_counterexample :
    prtByte .CMYK 400 1 1 (fun _ => (9 : ℝ) / 10) 100
      ≠ specCmykByteClamped (rowOf 400 1 1 100) (colOf 400 1 1 100) ((9 : ℝ) / 10) := by
  have hrow : rowOf 400 1 1 100 = 100 := by
    norm_num [rowOf, pageOffsetOf, jsMod]
  have hcol : colOf 400 1 1 100 = 0 := by
    norm_num [colOf, pageOffsetOf, jsMod]
  have hsin1 : (3 : ℝ) / 4 < Real.sin 1 := by
    have h := Real.sin_gt_sub_cube (x := 1) (by norm_num) (by norm_num)
    norm_num at h
    linarith
  have hsin2 : Real.sin 1 ≤ 1 := Real.sin_le_one 1
  rw [show prtByte .CMYK 400 1 1 (fun _ => (9 : ℝ) / 10) 100
        = ⌊(Real.sin ((rowOf 400 1 1 100 : ℤ) * 0.01)
            * Real.cos ((colOf 400 1 1 100 : ℚ) * 0.01) * 127 + 128)
              * (0.8 + (9 : ℝ) / 10 * 0.4)⌋ % 256 from rfl,
      specCmykByteClamped, hrow, hcol]
  rw [show (((100 : ℤ) : ℝ)) * 0.01 = 1 by norm_num,
      show (((0 : ℚ) : ℝ)) * 0.01 = 0 by norm_num, Real.cos_zero]
  have hE1 : (258 : ℝ) ≤ (Real.sin 1 * 1 * 127 + 128) * (0.8 + (9 : ℝ) / 10 * 0.4) := by
    nlinarith [hsin1]
  have hE2 : (Real.sin 1 * 1 * 127 + 128) * (0.8 + (9 : ℝ) / 10 * 0.4) < 296 := by
    nlinarith [hsin2]
  have h258 : (258 : ℤ)
      ≤ ⌊(Real.sin 1 * 1 * 127 + 128) * (0.8 + (9 : ℝ) / 10 * 0.4)⌋ := by
    apply Int.le_floor.mpr
    push_cast
    linarith
  have h296 : ⌊(Real.sin 1 * 1 * 127 + 128) * (0.8 + (9 : ℝ) / 10 * 0.4)⌋ < 296 := by
    apply Int.floor_lt.mpr
    push_cast
    linarith
  rw [min_eq_right (by omega)]
  omega

/-- C2 (amended): for every index of the primary payload in CMYK mode the
stored byte equals `floor(base * (0.8 + r*0.4))` reduced modulo 256 — the
`Uint8Array` store wraps, it does not clamp — with
`base = sin(row*0.01)*cos(col*0.01)*127 + 128` and `r` the fresh draw for
that byte; in Grayscale mode the stored byte equals
`floor(base * (0.7 + r*0.6))` modulo 256 with
`base = sin(row*0.02)*cos(col*0.02)*127 + 128`; all stored bytes lie in
`[0, 256)`. -/
theorem claim2_amended (S N W : ℕ) (r : ℕ → ℝ) (i : ℕ) :
    prtByte .CMYK S N W r i
        = ⌊(Real.sin (rowOf S N W i * 0.01) * Real.cos (colOf S N W i * 0.01) * 127 + 128)
            * (0.8 + r i * 0.4)⌋ % 256
    ∧ prtByte .Grayscale S N W r i
        = ⌊(Real.sin (rowOf S N W i * 0.02) * Real.cos (colOf S N W i * 0.02) * 127 + 128)
            * (0.7 + r i * 0.6)⌋ % 256
    ∧ 0 ≤ prtByte .CMYK S N W r i ∧ prtByte .CMYK S N W r i < 256
    ∧ 0 ≤ prtByte .Grayscale S N W r i ∧ prtByte .Grayscale S N W r i < 256 := by
  refine ⟨rfl, rfl, ?_, ?_, ?_, ?_⟩
  · exact Int.emod_nonneg _ (by norm_num)
  · exact Int.emod_lt_of_pos _ (by norm_num)
  · exact Int.emod_nonneg _ (by norm_num)
  · exact Int.emod_lt_of_pos _ (by norm_num)

/-- C3 (counterexample): the primary header does not carry eleven
device-capability fields.  After the eleven identity fields there are only
ten remaining lines (nine capability fields plus the sentinel), not the
twelve that the claim requires. -/
theorem claim3_counterexample :
    ((prtHeaderLines ⟨850, 1100, 1⟩ ⟨600, .BlackWhite, 80⟩
        "2024-01-01T00:00:00.000Z").drop 11).length ≠ 12 := by
  decide

/-- C3 (amended): the primary header consists of the eleven identity fields
(format identifier, file-type tag, creator tag, timestamp, DPI, color mode,
compression level, page count, page width, page height, bytes-per-pixel),
followed by exactly NINE fixed device-capability fields describing the
print-head, followed by the sentinel line `DROPLET_PLACEMENT_DATA_START`. -/
theorem claim3_amended (g : PageGeometry) (s : ConversionSettings) (ts : String) :
    prtHeaderLines g s ts
        = prtIdentityLines g s ts ++ deviceCapabilityLines
            ++ ["DROPLET_PLACEMENT_DATA_START"]
    ∧ (prtIdentityLines g s ts).length = 11
    ∧ deviceCapabilityLines.length = 9
    ∧ (prtHeaderLines g s ts).getLast? = some "DROPLET_PLACEMENT_DATA_START" :=
  ⟨rfl, rfl, rfl, rfl⟩

/-- C1 (counterexample): the primary payload byte length at the round-trip
scenario is not 467500.  Under the IEEE-754 binary64 arithmetic the program
runs on, `1 - 0.8 + 0.3` rounds to `0.49999999999999994` and
`Math.floor(935000 * (1 - 0.8 + 0.3))` is 467499, one below the exact
value `floor(935000 * 0.5) = 467500` stated by the claim. -/
theorem claim1_counterexample :
    dblCompressedImageSize ⟨850, 1100, 1⟩ ⟨600, .BlackWhite, 80⟩ ≠ 467500 := by
  rw [dblSize_roundtrip]
  norm_num

/-- C1 (amended): for geometry 850×1100 with one page and settings DPI 600,
BlackWhite, compression level 80, the primary payload byte length equals
467499 — the IEEE-754 evaluation of `floor(850*1100*1*1*(1-0.8+0.3))`,
where `1-0.8+0.3` rounds to `0.49999999999999994`, one below the exact
floor 467500; the primary header contains the lines `DPI:600`,
`COLOR_MODE:BlackWhite` and `PAGES:1`; and every primary payload byte is
0 or 255. -/
theorem claim1_amended :
    dblCompressedImageSize ⟨850, 1100, 1⟩ ⟨600, .BlackWhite, 80⟩ = 467499
    ∧ (∀ r : ℕ → ℝ,
        (prtImageData .BlackWhite
            (dblCompressedImageSize ⟨850, 1100, 1⟩ ⟨600, .BlackWhite, 80⟩) 1 850 r).length
          = 467499)
    ∧ (∀ ts : String,
        "DPI:600" ∈ prtHeaderLines ⟨850, 1100, 1⟩ ⟨600, .BlackWhite, 80⟩ ts
        ∧ "COLOR_MODE:BlackWhite" ∈ prtHeaderLines ⟨850, 1100, 1⟩ ⟨600, .BlackWhite, 80⟩ ts
        ∧ "PAGES:1" ∈ prtHeaderLines ⟨850, 1100, 1⟩ ⟨600, .BlackWhite, 80⟩ ts)
    ∧ (∀ (r : ℕ → ℝ) (i : ℕ),
        (prtImageData .BlackWhite
            (dblCompressedImageSize ⟨850, 1100, 1⟩ ⟨600, .BlackWhite, 80⟩) 1 850 r).getD i 0
            = 0
        ∨ (prtImageData .BlackWhite
            (dblCompressedImageSize ⟨850, 1100, 1⟩ ⟨600, .BlackWhite, 80⟩) 1 850 r).getD i 0
            = 255) := by
  refine ⟨dblSize_roundtrip, ?_, ?_, ?_⟩
  · intro r
    rw [length_prtImageData, dblSize_roundtrip]
  · intro ts
    exact ⟨.tail _ (.tail _ (.tail _ (.tail _ (.head _)))),
      .tail _ (.tail _ (.tail _ (.tail _ (.tail _ (.head _))))),
      .tail _ (.tail _ (.tail _ (.tail _ (.tail _ (.tail _ (.tail _ (.head _)))))))⟩
  · intro r i
    rw [prtImageData_getD]
    split
    · show (if _ > _ then (255 : ℤ) else 0) = 0 ∨ (if _ > _ then (255 : ℤ) else 0) = 255
      split
      · exact Or.inr rfl
      · exact Or.inl rfl
    · exact Or.inl rfl

/-- C4 (counterexample): the primary payload byte length is not the
exact-arithmetic `floor(pageWidth*pageHeight*bytesPerPixel*pageCount*(1-c/100+0.3))`:
at 850×1100, one page, BlackWhite, compression 80 the program's IEEE-754
evaluation gives 467499 while the exact floor is 467500. -/
theorem claim4_counterexample :
    ((dblCompressedImageSize ⟨850, 1100, 1⟩ ⟨600, .BlackWhite, 80⟩ : ℕ) : ℤ)
      ≠ ⌊(850 * 1100 * 1 * 1 : ℚ) * (1 - (80 : ℚ) / 100 + 0.3)⌋ := by
  have h2 : ⌊(850 * 1100 * 1 * 1 : ℚ) * (1 - (80 : ℚ) / 100 + 0.3)⌋ = 467500 := by
    norm_num
  rw [dblSize_roundtrip, h2]
  norm_num

/-- C4 (amended): for fixed page geometry and color mode, the primary
payload byte length equals the IEEE-754 double evaluation of
`floor(pageWidth * pageHeight * bytesPerPixel * pageCount * (1 - compressionLevel/100 + 0.3))`
— which can fall one below the exact-arithmetic floor — and this length is
non-increasing as the compression level increases over `[10, 100]`. -/
theorem claim4_amended (g : PageGeometry) (dpi : ℕ) (m : ColorMode) (c c' : ℕ)
    (_h10 : 10 ≤ c) (hcc : c ≤ c') (h100 : c' ≤ 100) :
    ((dblCompressedImageSize g ⟨dpi, m, c⟩ : ℕ) : ℤ)
        = ⌊dbl (dblBaseImageSize g m * dblDensityFactor c)⌋
    ∧ (∀ r : ℕ → ℝ,
        (prtImageData m (dblCompressedImageSize g ⟨dpi, m, c⟩) g.pageCount g.width r).length
          = dblCompressedImageSize g ⟨dpi, m, c⟩)
    ∧ dblCompressedImageSize g ⟨dpi, m, c'⟩ ≤ dblCompressedImageSize g ⟨dpi, m, c⟩ :=
  ⟨dblCompressedImageSize_cast g ⟨dpi, m, c⟩ (le_trans hcc h100),
    fun _r => length_prtImageData .., dblCompressedImageSize_anti g dpi m hcc⟩

/-- C4 (witness): raising the compression level from 80 to 90 on the
850×1100 single-page geometry does not increase the primary payload size. -/
theorem claim4_witness :
    10 ≤ 80 ∧ (80 : ℕ) ≤ 90 ∧ 90 ≤ 100
    ∧ dblCompressedImageSize ⟨850, 1100, 1⟩ ⟨600, .BlackWhite, 90⟩
        ≤ dblCompressedImageSize ⟨850, 1100, 1⟩ ⟨600, .BlackWhite, 80⟩ :=
  ⟨by norm_num, by norm_num, by norm_num,
    (claim4_amended ⟨850, 1100, 1⟩ 600 .BlackWhite 80 90
      (by norm_num) (by norm_num) (by norm_num)).2.2⟩

/-- C5: the control-data block has length exactly
`floor(primaryPayloadLength * 0.1)`; every control byte is
`(firingDelay + dropletSize) mod 256` with `nozzleIndex = i mod 1280` and
`firingDelay = floor(nozzleIndex/1280 * 255)`; and in BlackWhite mode
`dropletSize` is the constant 255, so every control byte equals
`(firingDelay + 255) mod 256` and control-data generation is fully
deterministic (independent of the random stream). -/
theorem claim5 (g : PageGeometry) (s : ConversionSettings) (r r' : ℕ → ℝ) :
    (controlDataOf g s r).length
        = (⌊((prtPayloadOf g s r).length : ℚ) * 0.1⌋).toNat
    ∧ (∀ i, controlByte s.colorMode r i
        = (⌊((i % 1280 : ℕ) : ℚ) / 1280 * 255⌋ + dropletSize s.colorMode (r i)) % 256)
    ∧ (∀ i, controlByte .BlackWhite r i
        = (⌊((i % 1280 : ℕ) : ℚ) / 1280 * 255⌋ + 255) % 256)
    ∧ (∀ dpi c, controlDataOf g ⟨dpi, .BlackWhite, c⟩ r
        = controlDataOf g ⟨dpi, .BlackWhite, c⟩ r') := by
  refine ⟨?_, fun i => rfl, fun i => rfl, fun dpi c => ?_⟩
  · rw [length_prtPayloadOf]
    simp [controlDataOf, length_controlData, controlDataSize]
  · simp [controlDataOf, controlData, controlByte, dropletSize]

/-- C8: the assembled output buffer is the exact concatenation
`header ++ payload ++ controlData` (control data present for the primary
artifact, absent for the preview artifact), so its total length equals
`header.length + payload.length + (controlData?.length ?? 0)` exactly, for
every geometry, settings and random stream. -/
theorem claim8 (g : PageGeometry) (s : ConversionSettings) (ts : String) (r : ℕ → ℝ) :
    (∀ (h p : List ℤ) (c : Option (List ℤ)),
        assemble h p c = h ++ p ++ c.getD []
        ∧ (assemble h p c).length = h.length + p.length + (c.getD []).length)
    ∧ prtFile g s ts r
        = stringBytes (headerText (prtHeaderLines g s ts))
            ++ prtPayloadOf g s r ++ controlDataOf g s r
    ∧ (prtFile g s ts r).length
        = (stringBytes (headerText (prtHeaderLines g s ts))).length
            + (prtPayloadOf g s r).length + (controlDataOf g s r).length
    ∧ pvwFile g s ts r
        = stringBytes (headerText (pvwHeaderLines g s ts)) ++ pvwPayloadOf g s r
    ∧ (pvwFile g s ts r).length
        = (stringBytes (headerText (pvwHeaderLines g s ts))).length
            + (pvwPayloadOf g s r).length := by
  refine ⟨fun h p c => ⟨assemble_eq h p c, length_assemble h p c⟩, ?_, ?_, ?_, ?_⟩
  · exact assemble_eq ..
  · exact length_assemble ..
  · rw [pvwFile, assemble_eq]
    simp
  · rw [pvwFile, length_assemble]
    simp

/-- C9: in BlackWhite mode every synthesized primary payload byte is exactly
0 or 255, and for every index the byte is 255 when
`sin(row*0.1)*cos(col*0.1)*127 + 128 > 128` and 0 otherwise. -/
theorem claim9 (S N W : ℕ) (r : ℕ → ℝ) (i : ℕ) :
    (prtByte .BlackWhite S N W r i = 0 ∨ prtByte .BlackWhite S N W r i = 255)
    ∧ (Real.sin (rowOf S N W i * 0.1) * Real.cos (colOf S N W i * 0.1) * 127 + 128 > 128
        → prtByte .BlackWhite S N W r i = 255)
    ∧ (¬ (Real.sin (rowOf S N W i * 0.1) * Real.cos (colOf S N W i * 0.1) * 127 + 128 > 128)
        → prtByte .BlackWhite S N W r i = 0) := by
  show ((if _ > _ then (255 : ℤ) else 0) = 0 ∨ (if _ > _ then (255 : ℤ) else 0) = 255) ∧ _
  constructor
  · split
    · exact Or.inr rfl
    · exact Or.inl rfl
  constructor
  · intro h
    simp only [prtByte, if_pos h]
  · intro h
    simp only [prtByte, if_neg h]

/-- C9 (witness): at index 0 of a 1×1 page the derived row and column are 0,
the threshold `sin 0 * cos 0 * 127 + 128 = 128` is not above 128, and the
stored byte is 0. -/
theorem claim9_witness :
    ¬ (Real.sin ((rowOf 1 1 1 0 : ℤ) * 0.1) * Real.cos ((colOf 1 1 1 0 : ℚ) * 0.1) * 127
          + 128 > 128)
    ∧ prtByte .BlackWhite 1 1 1 (fun _ => 0) 0 = 0 := by
  have hrow : rowOf 1 1 1 0 = 0 := by
    norm_num [rowOf, pageOffsetOf, jsMod]
  have hcol : colOf 1 1 1 0 = 0 := by
    norm_num [colOf, pageOffsetOf, jsMod]
  have hth : ¬ (Real.sin ((rowOf 1 1 1 0 : ℤ) * 0.1)
      * Real.cos ((colOf 1 1 1 0 : ℚ) * 0.1) * 127 + 128 > 128) := by
    rw [hrow, hcol]
    norm_num
  exact ⟨hth, (claim9 1 1 1 (fun _ => 0) 0).2.2 hth⟩

/-- C10 (implicit): in CMYK mode the synthesized payload byte does not
depend on the channel number `i mod 4` — the channel is computed but never
used, so any two indices that derive the same row and column and receive
the same random draw produce equal bytes, regardless of their channels. -/
theorem claim10 (S N W : ℕ) (r : ℕ → ℝ) (i j : ℕ)
    (hrow : rowOf S N W i = rowOf S N W j)
    (hcol : colOf S N W i = colOf S N W j)
    (hr : r i = r j) :
    prtByte .CMYK S N W r i = prtByte .CMYK S N W r j := by
  simp only [prtByte, hrow, hcol, hr]

/-- C10 (witness): with a four-byte two-page payload, indices 0 and 2 lie in
different CMYK channels (0 and 2) yet derive the same row, column and draw,
and their bytes agree. -/
theorem claim10_witness :
    (0 : ℕ) % 4 ≠ 2 % 4
    ∧ rowOf 4 2 1 0 = rowOf 4 2 1 2
    ∧ colOf 4 2 1 0 = colOf 4 2 1 2
    ∧ prtByte .CMYK 4 2 1 (fun _ => 0) 0 = prtByte .CMYK 4 2 1 (fun _ => 0) 2 := by
  have hrow : rowOf 4 2 1 0 = rowOf 4 2 1 2 := by
    norm_num [rowOf, pageOffsetOf, jsMod]
  have hcol : colOf 4 2 1 0 = colOf 4 2 1 2 := by
    norm_num [colOf, pageOffsetOf, jsMod]
  exact ⟨by decide, hrow, hcol, claim10 4 2 1 (fun _ => 0) 0 2 hrow hcol rfl⟩

end PrintRip
